import Mathlib

/-!
Verification of the DSP beamforming backend.

Shallow embedding of the beamforming code: element-position geometry,
steering and focusing of a phased array, field synthesis and its
post-processing, and scenario validation.  Real-valued numpy arrays are
modelled over `ℝ` (indexed functions or lists), dictionaries with
optional keys over `Option`, and numpy reductions (`max`, `linspace`)
by explicit Lean counterparts.
-/

/-- `np.radians` / `np.deg2rad`: degrees to radians. -/
noncomputable def radians (deg : ℝ) : ℝ := deg * Real.pi / 180

/-- `np.linspace lo hi n` sampled at index `i`: `n` evenly spaced points
from `lo` to `hi` inclusive; with `n = 1` numpy returns `[lo]`. -/
noncomputable def linspace (lo hi : ℝ) (n : ℕ) (i : ℕ) : ℝ :=
  if n ≤ 1 then lo else lo + (hi - lo) * i / ((n : ℝ) - 1)

/-- `np.max` over a 1-D array: the running maximum seeded with the first
entry (numpy raises on an empty array; this total model returns `0` there,
and is only ever applied to non-empty arrays). -/
def listMax : List ℝ → ℝ
  | [] => 0
  | x :: xs => xs.foldl max x

namespace PhasedArray

/-- Constructor parameters of `PhasedArray` (backend/core/beamforming/phased_array.py). -/
structure Config where
  numElements : ℕ
  elementSpacing : ℝ
  geometry : String
  curvatureRadius : ℝ
  position : ℝ × ℝ
  orientation : ℝ

/-- Linear branch of `_compute_element_positions`: local x of element `i`,
`(i - (n-1)/2) * element_spacing`. -/
noncomputable def linearLocalX (n : ℕ) (spacing : ℝ) (i : ℕ) : ℝ :=
  ((i : ℝ) - ((n : ℝ) - 1) / 2) * spacing

/-- Curved branch: subtended angle of the arc,
`arc_length / curvature_radius` if the radius is positive, else `π/2`. -/
noncomputable def curvedTotalAngle (n : ℕ) (spacing R : ℝ) : ℝ :=
  if 0 < R then ((n : ℝ) - 1) * spacing / R else Real.pi / 2

/-- Curved branch: angle of element `i`,
`np.linspace(-total_angle/2, total_angle/2, n)[i]`. -/
noncomputable def curvedAngle (n : ℕ) (spacing R : ℝ) (i : ℕ) : ℝ :=
  linspace (-(curvedTotalAngle n spacing R) / 2) (curvedTotalAngle n spacing R / 2) n i

/-- Curved branch: local position of element `i` on the arc,
`(R * sin θ_i, R * (1 - cos θ_i))`. -/
noncomputable def curvedLocal (n : ℕ) (spacing R : ℝ) (i : ℕ) : ℝ × ℝ :=
  (R * Real.sin (curvedAngle n spacing R i),
   R * (1 - Real.cos (curvedAngle n spacing R i)))

/-- Local (pre-rotation) position of element `i` for either geometry. -/
noncomputable def localPosition (cfg : Config) (i : ℕ) : ℝ × ℝ :=
  if cfg.geometry = "linear" then
    (linearLocalX cfg.numElements cfg.elementSpacing i, 0)
  else
    curvedLocal cfg.numElements cfg.elementSpacing cfg.curvatureRadius i

/-- Local (pre-rotation) normal of element `i`: `(0, 1)` for linear,
`(sin θ_i, cos θ_i)` for curved. -/
noncomputable def localNormal (cfg : Config) (i : ℕ) : ℝ × ℝ :=
  if cfg.geometry = "linear" then (0, 1)
  else
    (Real.sin (curvedAngle cfg.numElements cfg.elementSpacing cfg.curvatureRadius i),
     Real.cos (curvedAngle cfg.numElements cfg.elementSpacing cfg.curvatureRadius i))

/-- Row-vector times transposed rotation matrix, as in
`local_positions @ rotation_matrix.T` with angle `t`. -/
noncomputable def rotate (t : ℝ) (p : ℝ × ℝ) : ℝ × ℝ :=
  (p.1 * Real.cos t - p.2 * Real.sin t, p.1 * Real.sin t + p.2 * Real.cos t)

/-- `_compute_element_positions`: rotate the local position by the array
orientation and translate by the array position. -/
noncomputable def elementPosition (cfg : Config) (i : ℕ) : ℝ × ℝ :=
  let r := rotate (radians cfg.orientation) (localPosition cfg i)
  (r.1 + cfg.position.1, r.2 + cfg.position.2)

/-- `_compute_element_positions`: element normal after rotation. -/
noncomputable def elementNormal (cfg : Config) (i : ℕ) : ℝ × ℝ :=
  rotate (radians cfg.orientation) (localNormal cfg i)

/-- `set_steering_angle(angle_degrees, frequency, speed)`: the resulting
phase shift of element `i`. -/
noncomputable def steeringPhase (cfg : Config) (angleDeg freq speed : ℝ) (i : ℕ) : ℝ :=
  let wavelength := speed / freq
  let k := 2 * Real.pi / wavelength
  let theta := radians angleDeg
  if cfg.geometry = "linear" then
    -k * (((i : ℝ) - ((cfg.numElements : ℝ) - 1) / 2) * cfg.elementSpacing * wavelength)
      * Real.sin theta
  else
    let proj : ℕ → ℝ := fun j =>
      (elementPosition cfg j).1 * Real.sin theta + (elementPosition cfg j).2 * Real.cos theta
    let mean := (∑ j ∈ Finset.range cfg.numElements, proj j) / (cfg.numElements : ℝ);
    -k * (proj i - mean)

/-- `set_focus_point`: `np.linalg.norm` distance from element `i` to the
focus point. -/
noncomputable def focusDistance (cfg : Config) (fx fy : ℝ) (i : ℕ) : ℝ :=
  Real.sqrt (((elementPosition cfg i).1 - fx) ^ 2 + ((elementPosition cfg i).2 - fy) ^ 2)

/-- `set_focus_point`: `distances.max()` over the array's elements. -/
noncomputable def focusMaxDistance (cfg : Config) (fx fy : ℝ) : ℝ :=
  listMax ((List.range cfg.numElements).map (focusDistance cfg fx fy))

/-- `set_focus_point`: delay of element `i`,
`(max_distance - distances[i]) / speed`. -/
noncomputable def focusDelay (cfg : Config) (fx fy speed : ℝ) (i : ℕ) : ℝ :=
  (focusMaxDistance cfg fx fy - focusDistance cfg fx fy i) / speed

/-- `set_focus_point`: phase of element `i`, `2π * frequency * delays[i]`. -/
noncomputable def focusPhase (cfg : Config) (fx fy freq speed : ℝ) (i : ℕ) : ℝ :=
  2 * Real.pi * freq * focusDelay cfg fx fy speed i

/-- Optional arguments of `PhasedArray.update_parameters`. -/
structure UpdateParams where
  numElements : Option ℕ
  elementSpacing : Option ℝ
  geometry : Option String
  curvatureRadius : Option ℝ
  position : Option (ℝ × ℝ)
  orientation : Option ℝ

/-- Mutable state of a `PhasedArray` instance: the configuration fields
plus the derived per-element arrays. -/
structure State where
  cfg : Config
  phaseShifts : List ℝ
  delays : List ℝ
  amplitudes : List ℝ
  elementPositions : List (ℝ × ℝ)

/-- `_compute_element_positions` as a full table of `num_elements` rows. -/
noncomputable def computePositions (cfg : Config) : List (ℝ × ℝ) :=
  (List.range cfg.numElements).map (elementPosition cfg)

/-- `PhasedArray.__init__`: zero phases and delays, unit amplitudes, and
freshly computed element positions. -/
noncomputable def mkState (cfg : Config) : State :=
  { cfg := cfg
    phaseShifts := List.replicate cfg.numElements 0
    delays := List.replicate cfg.numElements 0
    amplitudes := List.replicate cfg.numElements 1
    elementPositions := computePositions cfg }

/-- `PhasedArray.update_parameters`: apply each provided parameter in the
source's order (a new `num_elements` also resets phases, delays and
amplitudes), then recompute the element positions. -/
noncomputable def updateParameters (s : State) (u : UpdateParams) : State :=
  let s1 :=
    match u.numElements with
    | some n =>
        { s with cfg := { s.cfg with numElements := n }
                 phaseShifts := List.replicate n 0
                 delays := List.replicate n 0
                 amplitudes := List.replicate n 1 }
    | none => s
  let c2 :=
    match u.elementSpacing with
    | some sp => { s1.cfg with elementSpacing := sp }
    | none => s1.cfg
  let c3 :=
    match u.geometry with
    | some g => { c2 with geometry := g }
    | none => c2
  let c4 :=
    match u.curvatureRadius with
    | some r => { c3 with curvatureRadius := r }
    | none => c3
  let c5 :=
    match u.position with
    | some p => { c4 with position := p }
    | none => c4
  let c6 :=
    match u.orientation with
    | some o => { c5 with orientation := o }
    | none => c5
  { s1 with cfg := c6, elementPositions := computePositions c6 }

/-- The element-table invariant: each derived per-element array has
exactly `num_elements` entries. -/
def tableInvariant (s : State) : Prop :=
  s.phaseShifts.length = s.cfg.numElements ∧
  s.delays.length = s.cfg.numElements ∧
  s.amplitudes.length = s.cfg.numElements ∧
  s.elementPositions.length = s.cfg.numElements

end PhasedArray

namespace SimulatorGeom

/-- `BeamformingSimulator._get_element_positions`, curved branch
(backend/core/beamforming/beamforming_simulator.py): element angle, with
the explicit `n > 1` guard of the source (`angles = [0]` for one element). -/
noncomputable def curvedAngle (n : ℕ) (spacing R : ℝ) (i : ℕ) : ℝ :=
  if 1 < n then
    let arcLength := ((n : ℝ) - 1) * spacing
    let totalAngle := if 0 < R then arcLength / R else Real.pi / 2;
    linspace (-totalAngle / 2) (totalAngle / 2) n i
  else 0

/-- Curved branch: local element position `(R sin θ, R (1 - cos θ))`. -/
noncomputable def curvedLocal (n : ℕ) (spacing R : ℝ) (i : ℕ) : ℝ × ℝ :=
  (R * Real.sin (curvedAngle n spacing R i),
   R * (1 - Real.cos (curvedAngle n spacing R i)))

end SimulatorGeom

namespace Pt2

/-- `PhasedArray._calculate_positions`, curved branch
(backend_pt2/core/phased_array.py): a fixed half-circle arc,
`theta = np.linspace(-π, 0, n)`. -/
noncomputable def curvedTheta (n : ℕ) (i : ℕ) : ℝ :=
  linspace (-Real.pi) 0 n i

/-- Curved branch: element position `(R cos θ, R sin θ)` on the
half-circle (spacing plays no role in the angles). -/
noncomputable def curvedPosition (R : ℝ) (n : ℕ) (i : ℕ) : ℝ × ℝ :=
  (R * Real.cos (curvedTheta n i), R * Real.sin (curvedTheta n i))

/-- `BeamformingSimulator.compute_beam_profile`
(backend_pt2/core/beamforming_simulator.py): `magnitude = np.abs(array_factor)`. -/
noncomputable def profileMagnitude (af : List ℂ) : List ℝ :=
  af.map Complex.abs

/-- The next line of that source, `magnitude = magnitude / np.max(magnitude)`:
an unguarded division by the maximum, with no positive-maximum check.
The float division is modelled as fallible: the magnitudes are
non-negative, so a zero maximum makes every entry the IEEE indeterminate
0/0 (NaN), represented as `none`; a non-zero maximum divides normally. -/
noncomputable def profileNormalized (af : List ℂ) : List (Option ℝ) :=
  let m := profileMagnitude af;
  m.map (fun v => if listMax m = 0 then none else some (v / listMax m))

end Pt2

/-- Modelled from the spec (refinement comparison only): the claimed
placement of curved-array elements — subtended angle `(N-1)·s/R` for
`R > 0`, defaulting to `π/2`, angles linearly spaced over
`[-angle/2, angle/2]`, local position `(R sin θ_i, R (1 - cos θ_i))`. -/
noncomputable def specCurvedPosition (n : ℕ) (spacing R : ℝ) (i : ℕ) : ℝ × ℝ :=
  let angle := if 0 < R then ((n : ℝ) - 1) * spacing / R else Real.pi / 2
  let theta := linspace (-angle / 2) (angle / 2) n i;
  (R * Real.sin theta, R * (1 - Real.cos theta))

namespace Engine2

/-- `BeamformingEngine._create_linear_array`
(backend2/core/beamforming_engine.py): row `i` of the positions array. -/
noncomputable def createLinearArray (n : ℕ) (spacing : ℝ) (i : ℕ) : ℝ × ℝ :=
  (((i : ℝ) - ((n : ℝ) - 1) / 2) * spacing, 0)

/-- One array's dictionary in `BeamformingEngine`: the `add_array`
default keys plus the computed `element_positions`. -/
structure ArrayConfig where
  type : String
  num_elements : ℕ
  spacing : ℝ
  position : ℝ × ℝ
  orientation : ℝ
  curvature : ℝ
  delays : List ℝ
  amplitudes : List ℝ
  enabled : Bool
  element_positions : List (ℝ × ℝ)

/-- `_create_linear_array` as the full positions table. -/
noncomputable def createLinearList (n : ℕ) (spacing : ℝ) : List (ℝ × ℝ) :=
  (List.range n).map (createLinearArray n spacing)

/-- `_create_curved_array`, non-zero curvature: radius = 1/curvature,
subtended angle = (n-1)·spacing/radius, angles linearly spaced over
[-angle/2, angle/2], position (radius·sinθ, radius·(1-cosθ)). -/
noncomputable def createCurvedArrayPos (n : ℕ) (spacing curvature : ℝ) (i : ℕ) : ℝ × ℝ :=
  let radius := 1 / curvature
  let angle := ((n : ℝ) - 1) * spacing / radius
  let theta := linspace (-angle / 2) (angle / 2) n i;
  (radius * Real.sin theta, radius * (1 - Real.cos theta))

/-- `_create_curved_array`: zero curvature falls back to the linear
array. -/
noncomputable def createCurvedList (n : ℕ) (spacing curvature : ℝ) : List (ℝ × ℝ) :=
  if curvature = 0 then createLinearList n spacing
  else (List.range n).map (createCurvedArrayPos n spacing curvature)

/-- `_create_circular_array`: radius = spacing·n/(2π), angles
`np.linspace(0, 2π, n, endpoint=False)` (the i-th is 2π·i/n), position
(radius·cosθ, radius·sinθ). -/
noncomputable def createCircularArrayPos (n : ℕ) (spacing : ℝ) (i : ℕ) : ℝ × ℝ :=
  let radius := spacing * n / (2 * Real.pi)
  let angle := 2 * Real.pi * i / n;
  (radius * Real.cos angle, radius * Real.sin angle)

noncomputable def createCircularList (n : ℕ) (spacing : ℝ) : List (ℝ × ℝ) :=
  (List.range n).map (createCircularArrayPos n spacing)

/-- `_create_rectangular_array`: rows = int(sqrt(n)) (`Nat.sqrt`),
cols = ceil(n/rows), a row-major grid centred on the origin, truncated
to n entries (`positions[:num_elements]`); element idx sits at row
idx/cols, column idx%cols. -/
noncomputable def createRectangularArrayPos (n : ℕ) (spacing : ℝ) (idx : ℕ) : ℝ × ℝ :=
  let rows := Nat.sqrt n
  let cols := if rows = 0 then 0 else (n + rows - 1) / rows
  let i := idx / cols
  let j := idx % cols;
  (((j : ℝ) - ((cols : ℝ) - 1) / 2) * spacing,
   ((i : ℝ) - ((rows : ℝ) - 1) / 2) * spacing)

noncomputable def createRectangularList (n : ℕ) (spacing : ℝ) : List (ℝ × ℝ) :=
  (List.range n).map (createRectangularArrayPos n spacing)

/-- `_calculate_element_positions`: dispatch on the array type (an
unknown type falls back to linear), rotate when the orientation (already
converted by `np.radians`) is non-zero, then translate by the array
position. -/
noncomputable def calculateElementPositions (a : ArrayConfig) : List (ℝ × ℝ) :=
  let base :=
    if a.type = "linear" then createLinearList a.num_elements a.spacing
    else if a.type = "curved" then createCurvedList a.num_elements a.spacing a.curvature
    else if a.type = "circular" then createCircularList a.num_elements a.spacing
    else if a.type = "rectangular" then createRectangularList a.num_elements a.spacing
    else createLinearList a.num_elements a.spacing
  let rotated :=
    if radians a.orientation ≠ 0 then
      base.map (PhasedArray.rotate (radians a.orientation))
    else base;
  rotated.map (fun p => (p.1 + a.position.1, p.2 + a.position.2))

/-- The recognized parameters of `update_array_parameter` with their
values (an unrecognized parameter name leaves the array unchanged and
makes the source return False, so it is not modelled). -/
inductive ParamValue where
  | position (p : ℝ × ℝ)
  | orientation (o : ℝ)
  | curvature (c : ℝ)
  | spacing (s : ℝ)
  | num_elements (n : ℕ)
  | delays (d : List ℝ)
  | amplitudes (a : List ℝ)
  | enabled (b : Bool)

/-- `BeamformingEngine.update_array_parameter`: the five geometry
parameters overwrite their key and recompute `element_positions`;
`delays`, `amplitudes` and `enabled` are plain key overwrites — nothing
else in the array dictionary is touched. -/
noncomputable def updateArrayParameter (a : ArrayConfig) (v : ParamValue) : ArrayConfig :=
  match v with
  | .position p =>
      let a2 := { a with position := p };
      { a2 with element_positions := calculateElementPositions a2 }
  | .orientation o =>
      let a2 := { a with orientation := o };
      { a2 with element_positions := calculateElementPositions a2 }
  | .curvature c =>
      let a2 := { a with curvature := c };
      { a2 with element_positions := calculateElementPositions a2 }
  | .spacing sp =>
      let a2 := { a with spacing := sp };
      { a2 with element_positions := calculateElementPositions a2 }
  | .num_elements n =>
      let a2 := { a with num_elements := n };
      { a2 with element_positions := calculateElementPositions a2 }
  | .delays d => { a with delays := d }
  | .amplitudes am => { a with amplitudes := am }
  | .enabled b => { a with enabled := b }

/-- `BeamformingEngine.add_array` with an empty user config: the default
dictionary (linear, 8 elements, spacing 0.5, origin, no rotation, zero
curvature, empty delays and amplitudes, enabled) with the element
positions computed. -/
noncomputable def defaultArray : ArrayConfig :=
  let base : ArrayConfig := ⟨"linear", 8, 0.5, (0, 0), 0, 0, [], [], true, []⟩;
  { base with element_positions := calculateElementPositions base }

end Engine2

namespace Beamformer

/-- The per-array data that `Beamformer` reads from a `PhasedArray`:
`num_elements`, `element_positions`, `get_phases()`, `get_amplitudes()`. -/
structure Arr where
  numElements : ℕ
  positions : ℕ → ℝ × ℝ
  phases : ℕ → ℝ
  amplitudes : ℕ → ℝ

/-- `r = np.maximum(r, wavelength / 100)`: the distance clamped below by
`λ/100` before it divides the field (backend/core/beamforming/beamformer.py,
used identically in `compute_interference_field` and
`compute_beam_profile`). -/
noncomputable def clampedDistance (wavelength r : ℝ) : ℝ :=
  max r (wavelength / 100)

/-- One element's contribution to the field at a point:
`amplitudes[i] * exp(1j*(k*r + phases[i])) / sqrt(r)` with the clamped `r`. -/
noncomputable def elementField (wavelength k amp phase px py x y : ℝ) : ℂ :=
  let r := clampedDistance wavelength (Real.sqrt ((x - px) ^ 2 + (y - py) ^ 2));
  (amp : ℂ) * Complex.exp (Complex.I * ((k : ℂ) * (r : ℂ) + (phase : ℂ))) / (Real.sqrt r : ℂ)

/-- Sum of the element contributions of one array at a point, for one
frequency with wavelength `speed / freq` and wave number `k = 2π/λ`. -/
noncomputable def arrayFieldAt (speed freq x y : ℝ) (a : Arr) : ℂ :=
  let wavelength := speed / freq
  let k := 2 * Real.pi / wavelength;
  ∑ i ∈ Finset.range a.numElements,
    elementField wavelength k (a.amplitudes i) (a.phases i)
      (a.positions i).1 (a.positions i).2 x y

/-- `compute_interference_field` evaluated at grid row `row`, column `col`:
zero when no arrays are present, else the frequency-averaged superposition
over the `linspace` grid (`x ∈ [-w/2, w/2]`, `y ∈ [0, h]`). -/
noncomputable def interferenceField (arrays : List Arr) (freqs : List ℝ)
    (speed w h : ℝ) (res : ℕ) (row col : ℕ) : ℂ :=
  match arrays with
  | [] => 0
  | _ =>
    (freqs.map (fun freq =>
      (arrays.map (arrayFieldAt speed freq
        (linspace (-w / 2) (w / 2) res col) (linspace 0 h res row))).sum)).sum
      / (freqs.length : ℂ)

/-- `compute_beam_profile`: raw intensity at one angle (degrees) —
`sum over frequencies of |field at (d sin θ, d cos θ)|²`, divided by the
number of frequencies. -/
noncomputable def rawIntensity (arrays : List Arr) (freqs : List ℝ)
    (speed dist angleDeg : ℝ) : ℝ :=
  let theta := radians angleDeg
  let x := dist * Real.sin theta
  let y := dist * Real.cos theta;
  (freqs.map (fun freq =>
    Complex.abs ((arrays.map (arrayFieldAt speed freq x y)).sum) ^ 2)).sum
    / (freqs.length : ℝ)

/-- `np.linspace(lo, hi, n)` as a list. -/
noncomputable def linspaceList (lo hi : ℝ) (n : ℕ) : List ℝ :=
  (List.range n).map (linspace lo hi n)

/-- `compute_beam_profile`: the returned angle grid — 181 samples of
`[-90, 90]` when no arrays are present, else 361 samples. -/
noncomputable def profileAngles (arrays : List Arr) : List ℝ :=
  match arrays with
  | [] => linspaceList (-90) 90 181
  | _ => linspaceList (-90) 90 361

/-- `compute_beam_profile`: the returned intensities — zeros alongside the
181 angles when no arrays are present; otherwise the raw intensities over
the 361 angles, divided by their own maximum when that maximum is
positive. -/
noncomputable def profileIntensities (arrays : List Arr) (freqs : List ℝ)
    (speed dist : ℝ) : List ℝ :=
  match arrays with
  | [] => List.replicate 181 0
  | _ =>
    let raw := (linspaceList (-90) 90 361).map (rawIntensity arrays freqs speed dist)
    let m := listMax raw;
    if 0 < m then raw.map (fun v => v / m) else raw

/-- Uniform rescaling of one array's element amplitudes by `c`
(as `set_custom_amplitudes` with `c * amplitudes`). -/
def scaleAmplitudes (c : ℝ) (a : Arr) : Arr :=
  { a with amplitudes := fun i => c * a.amplitudes i }

end Beamformer

namespace Simulator

/-- `BeamformingSimulator.compute_beam_profile` post-processing
(backend/core/beamforming/beamforming_simulator.py): per-sample magnitude
`np.abs(array_factor)`. -/
noncomputable def magnitude (af : List ℂ) : List ℝ :=
  af.map Complex.abs

/-- `if np.max(magnitude) > 0: magnitude = magnitude / np.max(magnitude)`:
normalization by the pattern's own maximum, guarded against an all-zero
magnitude. -/
noncomputable def normalizedMagnitude (af : List ℂ) : List ℝ :=
  let m := magnitude af;
  if 0 < listMax m then m.map (fun v => v / listMax m) else m

/-- `magnitude_db = np.maximum(20 * log10(np.clip(magnitude, 1e-10, 1)), -60)`. -/
noncomputable def magnitudeDb (af : List ℂ) : List ℝ :=
  (normalizedMagnitude af).map
    (fun v => max (20 * Real.logb 10 (min (max v 1e-10) 1)) (-60))

/-- `magnitude_scaled = (magnitude_db + 60) / 60`. -/
noncomputable def magnitudeScaled (af : List ℂ) : List ℝ :=
  (magnitudeDb af).map (fun db => (db + 60) / 60)

end Simulator

namespace Scenario

/-- A scenario-configuration dictionary
(backend/core/beamforming/scenario_manager.py): `Option` marks keys that
may be absent. -/
structure ScenarioData where
  name : Option String
  num_elements : Option ℤ
  frequency : Option ℚ
  array_type : Option String
  curvature_radius : Option ℚ

/-- Python `str.lower` on the ASCII array-type names, as an explicit
character map (Lean's `String.toLower` does not reduce in the kernel). -/
def pyLower (s : String) : String := String.mk (s.data.map Char.toLower)

/-- `ScenarioManager.validate_scenario`: required-field checks in source
order, then the numeric-range and array-type checks, returning
`(is_valid, error_message)`. -/
def validate_scenario (d : ScenarioData) : Bool × String :=
  match d.name with
  | none => (false, "Missing required field: name")
  | some _ =>
  match d.num_elements with
  | none => (false, "Missing required field: num_elements")
  | some n =>
  match d.frequency with
  | none => (false, "Missing required field: frequency")
  | some f =>
  match d.array_type with
  | none => (false, "Missing required field: array_type")
  | some t =>
    if n < 2 ∨ 256 < n then
      (false, "num_elements must be between 2 and 256")
    else if f ≤ 0 then
      (false, "frequency must be positive")
    else if t ∉ ["Linear", "Curved", "linear", "curved"] then
      (false, "array_type must be 'Linear' or 'Curved'")
    else if pyLower t = "curved" then
      match d.curvature_radius with
      | some r =>
          if r ≤ 0 then
            (false, "curvature_radius must be positive for curved arrays")
          else (true, "")
      | none => (true, "")
    else (true, "")

end Scenario

lemma le_foldl_max (x : ℝ) (xs : List ℝ) : x ≤ xs.foldl max x := by
  induction xs generalizing x with
  | nil => simp
  | cons y ys ih =>
      calc x ≤ max x y := le_max_left x y
        _ ≤ ys.foldl max (max x y) := ih (max x y)

lemma foldl_max_mono {x y : ℝ} (h : x ≤ y) (xs : List ℝ) :
    xs.foldl max x ≤ xs.foldl max y := by
  induction xs generalizing x y with
  | nil => simpa using h
  | cons z zs ih =>
      exact ih (max_le_max h le_rfl)

lemma mem_le_foldl_max {a : ℝ} {xs : List ℝ} (x : ℝ) (h : a ∈ xs) :
    a ≤ xs.foldl max x := by
  induction xs generalizing x with
  | nil => cases h
  | cons y ys ih =>
      rcases List.mem_cons.mp h with rfl | h
      · calc a ≤ max x a := le_max_right x a
          _ ≤ ys.foldl max (max x a) := le_foldl_max _ _
      · exact ih (max x y) h

lemma foldl_max_mem (x : ℝ) (xs : List ℝ) : xs.foldl max x ∈ x :: xs := by
  induction xs generalizing x with
  | nil => simp
  | cons y ys ih =>
      simp only [List.foldl]
      rcases List.mem_cons.mp (ih (max x y)) with h | h
      · rcases max_choice x y with hm | hm
        · rw [h, hm]; exact List.mem_cons_self x (y :: ys)
        · rw [h, hm]
          exact List.mem_cons.mpr (Or.inr (List.mem_cons_self y ys))
      · exact List.mem_cons.mpr (Or.inr (List.mem_cons.mpr (Or.inr h)))

lemma le_listMax {a : ℝ} {l : List ℝ} (h : a ∈ l) : a ≤ listMax l := by
  cases l with
  | nil => cases h
  | cons x xs =>
      rcases List.mem_cons.mp h with rfl | h
      · exact le_foldl_max _ _
      · exact mem_le_foldl_max _ h

lemma listMax_mem {l : List ℝ} (h : l ≠ []) : listMax l ∈ l := by
  cases l with
  | nil => exact absurd rfl h
  | cons x xs => exact foldl_max_mem x xs

lemma listMax_eq_zero {l : List ℝ} (h : ∀ v ∈ l, v = 0) : listMax l = 0 := by
  cases l with
  | nil => rfl
  | cons x xs => exact h _ (listMax_mem (by simp))

lemma createLinearList_length (n : ℕ) (s : ℝ) :
    (Engine2.createLinearList n s).length = n := by
  simp [Engine2.createLinearList]

lemma createCurvedList_length (n : ℕ) (s c : ℝ) :
    (Engine2.createCurvedList n s c).length = n := by
  unfold Engine2.createCurvedList
  split_ifs <;> simp [Engine2.createLinearList]

lemma createCircularList_length (n : ℕ) (s : ℝ) :
    (Engine2.createCircularList n s).length = n := by
  simp [Engine2.createCircularList]

lemma createRectangularList_length (n : ℕ) (s : ℝ) :
    (Engine2.createRectangularList n s).length = n := by
  simp [Engine2.createRectangularList]

lemma calculateElementPositions_length (a : Engine2.ArrayConfig) :
    (Engine2.calculateElementPositions a).length = a.num_elements := by
  simp only [Engine2.calculateElementPositions, List.length_map]
  split_ifs <;>
    simp [createLinearList_length, createCurvedList_length,
      createCircularList_length, createRectangularList_length]

/-- C5: for every linear array with N elements and spacing s at the default
position (0,0) with orientation 0, element i sits at
((i - (N-1)/2)·s, 0) and its normal is (0,1); backend2's
`_create_linear_array` produces the same positions. -/
theorem C5_linear_positions (n : ℕ) (s R : ℝ) (i : ℕ) :
    PhasedArray.elementPosition ⟨n, s, "linear", R, (0, 0), 0⟩ i
      = (((i : ℝ) - ((n : ℝ) - 1) / 2) * s, 0)
    ∧ PhasedArray.elementNormal ⟨n, s, "linear", R, (0, 0), 0⟩ i = (0, 1)
    ∧ Engine2.createLinearArray n s i
      = (((i : ℝ) - ((n : ℝ) - 1) / 2) * s, 0) := by
  have hr : radians 0 = 0 := by unfold radians; ring
  refine ⟨?_, ?_, rfl⟩
  · simp [PhasedArray.elementPosition, PhasedArray.localPosition, PhasedArray.rotate,
      PhasedArray.linearLocalX, hr]
  · simp [PhasedArray.elementNormal, PhasedArray.localNormal, PhasedArray.rotate, hr]

/-- C10: with no arrays, `compute_interference_field` returns the all-zero
complex field over the resolution×resolution grid, and
`compute_beam_profile` returns 181 angle samples with all-zero
intensities; with at least one array the sweep has 361 samples. -/
theorem C10_empty_system (freqs : List ℝ) (speed w h dist : ℝ)
    (res row col : ℕ) (a : Beamformer.Arr) (l : List Beamformer.Arr) :
    Beamformer.interferenceField [] freqs speed w h res row col = 0
    ∧ Beamformer.profileAngles [] = Beamformer.linspaceList (-90) 90 181
    ∧ (Beamformer.profileAngles []).length = 181
    ∧ Beamformer.profileIntensities [] freqs speed dist = List.replicate 181 0
    ∧ (Beamformer.profileAngles (a :: l)).length = 361 := by
  refine ⟨rfl, rfl, ?_, rfl, ?_⟩ <;>
    simp [Beamformer.profileAngles, Beamformer.linspaceList]

/-- C3: in field synthesis the element-to-point distance is clamped below
by λ/100 = (speed/freq)/100 before use, so the clamped distance and the
divisor sqrt(r) are strictly positive for every element, point and
frequency. -/
theorem C3_clamped_distance_pos (freq speed r : ℝ) (hf : 0 < freq) (hs : 0 < speed) :
    0 < Beamformer.clampedDistance (speed / freq) r
    ∧ 0 < Real.sqrt (Beamformer.clampedDistance (speed / freq) r) := by
  have hw : 0 < speed / freq / 100 := by positivity
  have h1 : 0 < Beamformer.clampedDistance (speed / freq) r :=
    lt_of_lt_of_le hw (le_max_right _ _)
  exact ⟨h1, Real.sqrt_pos.mpr h1⟩

theorem C3_witness :
    (0 : ℝ) < 1 ∧
      (0 < Beamformer.clampedDistance ((1 : ℝ) / 1) 0
       ∧ 0 < Real.sqrt (Beamformer.clampedDistance ((1 : ℝ) / 1) 0)) :=
  ⟨by norm_num, C3_clamped_distance_pos 1 1 0 (by norm_num) (by norm_num)⟩

/-- C8 (counterexample): in backend2, updating `num_elements` of the
default 8-element array to 3 recomputes 3 element positions but leaves
the `amplitudes` list at its old length — the per-element table is
stale, contradicting the claimed N-entries-after-every-update invariant. -/
theorem C8_counterexample :
    (Engine2.updateArrayParameter Engine2.defaultArray
        (Engine2.ParamValue.num_elements 3)).element_positions.length = 3
    ∧ (Engine2.updateArrayParameter Engine2.defaultArray
        (Engine2.ParamValue.num_elements 3)).amplitudes.length ≠ 3 := by
  constructor
  · have h : (Engine2.updateArrayParameter Engine2.defaultArray
        (Engine2.ParamValue.num_elements 3)).element_positions
      = Engine2.calculateElementPositions
          { Engine2.defaultArray with num_elements := 3 } := rfl
    rw [h, calculateElementPositions_length]
  · show ([] : List ℝ).length ≠ 3
    simp

/-- C8 (amended): backend's `PhasedArray.update_parameters` preserves the
full N-entry element table — after any update a well-formed state has
exactly N phases, N delays, N amplitudes and N positions, the positions
recomputed from the new configuration; backend2's
`update_array_parameter` recomputes only `element_positions` (always
matching the new N) and leaves `delays` and `amplitudes` untouched, so
those can remain at a stale length after `num_elements` changes. -/
theorem C8_update_preserves_table (s : PhasedArray.State) (u : PhasedArray.UpdateParams)
    (a : Engine2.ArrayConfig) (n : ℕ) (hs : PhasedArray.tableInvariant s) :
    PhasedArray.tableInvariant (PhasedArray.updateParameters s u)
    ∧ (Engine2.updateArrayParameter a
        (Engine2.ParamValue.num_elements n)).element_positions.length = n
    ∧ (Engine2.updateArrayParameter a
        (Engine2.ParamValue.num_elements n)).amplitudes = a.amplitudes
    ∧ (Engine2.updateArrayParameter a
        (Engine2.ParamValue.num_elements n)).delays = a.delays := by
  refine ⟨?_, ?_, rfl, rfl⟩
  · obtain ⟨h1, h2, h3, h4⟩ := hs
    unfold PhasedArray.updateParameters
    rcases u with ⟨un, usp, ug, ur, up, uo⟩
    cases un <;> cases usp <;> cases ug <;> cases ur <;> cases up <;> cases uo <;>
      simp_all [PhasedArray.tableInvariant, PhasedArray.computePositions]
  · have h : (Engine2.updateArrayParameter a
        (Engine2.ParamValue.num_elements n)).element_positions
      = Engine2.calculateElementPositions { a with num_elements := n } := rfl
    rw [h, calculateElementPositions_length]

theorem C8_witness :
    PhasedArray.tableInvariant
      (PhasedArray.mkState ⟨4, 1/2, "linear", 10, (0, 0), 0⟩) ∧
    PhasedArray.tableInvariant
      (PhasedArray.updateParameters
        (PhasedArray.mkState ⟨4, 1/2, "linear", 10, (0, 0), 0⟩)
        ⟨some 6, none, some "curved", none, none, none⟩) := by
  have hinv : PhasedArray.tableInvariant
      (PhasedArray.mkState ⟨4, 1/2, "linear", 10, (0, 0), 0⟩) := by
    simp [PhasedArray.mkState, PhasedArray.tableInvariant, PhasedArray.computePositions]
  exact ⟨hinv,
    (C8_update_preserves_table _ ⟨some 6, none, some "curved", none, none, none⟩
      Engine2.defaultArray 3 hinv).1⟩

/-- C1: for a linear array, `set_steering_angle` sets
phase_i = -k·d_i·sin(θ) with λ = speed/frequency, k = 2π/λ and
d_i = (i-(N-1)/2)·spacing·λ; steering angle 0 yields all-zero phases; and
for N=8, spacing=0.5, λ=1, θ=30° the phases of elements 0 and 7 have
opposite sign with |phase7 - phase0| = 2π·0.5·7·sin(30°). -/
theorem C1_steering_phases (n : ℕ) (s R : ℝ) (p : ℝ × ℝ) (o freq speed angleDeg : ℝ) (i : ℕ) :
    (PhasedArray.steeringPhase ⟨n, s, "linear", R, p, o⟩ angleDeg freq speed i
      = -(2 * Real.pi / (speed / freq))
          * (((i : ℝ) - ((n : ℝ) - 1) / 2) * s * (speed / freq))
          * Real.sin (radians angleDeg))
    ∧ PhasedArray.steeringPhase ⟨n, s, "linear", R, p, o⟩ 0 freq speed i = 0
    ∧ (0 < PhasedArray.steeringPhase ⟨8, 1/2, "linear", 10, (0, 0), 0⟩ 30 1 1 0
       ∧ PhasedArray.steeringPhase ⟨8, 1/2, "linear", 10, (0, 0), 0⟩ 30 1 1 7 < 0
       ∧ |PhasedArray.steeringPhase ⟨8, 1/2, "linear", 10, (0, 0), 0⟩ 30 1 1 7
            - PhasedArray.steeringPhase ⟨8, 1/2, "linear", 10, (0, 0), 0⟩ 30 1 1 0|
          = 2 * Real.pi * (1/2) * 7 * Real.sin (radians 30)) := by
  have hrad0 : radians 0 = 0 := by unfold radians; ring
  have hrad30 : radians 30 = Real.pi / 6 := by unfold radians; ring
  have hsin30 : Real.sin (radians 30) = 1 / 2 := by rw [hrad30, Real.sin_pi_div_six]
  have h0 : PhasedArray.steeringPhase ⟨8, 1/2, "linear", 10, (0, 0), 0⟩ 30 1 1 0
      = 7 * Real.pi / 4 := by
    simp only [PhasedArray.steeringPhase, if_pos rfl]
    rw [hsin30]; push_cast; ring
  have h7 : PhasedArray.steeringPhase ⟨8, 1/2, "linear", 10, (0, 0), 0⟩ 30 1 1 7
      = -(7 * Real.pi / 4) := by
    simp only [PhasedArray.steeringPhase, if_pos rfl]
    rw [hsin30]; push_cast; ring
  refine ⟨by simp only [PhasedArray.steeringPhase, if_pos rfl, if_true], ?_, ?_, ?_, ?_⟩
  · simp [PhasedArray.steeringPhase, hrad0]
  · rw [h0]; positivity
  · rw [h7]; simp; positivity
  · rw [h0, h7, hsin30]
    rw [show -(7 * Real.pi / 4) - 7 * Real.pi / 4 = -(7 * Real.pi / 2) by ring]
    rw [abs_neg, abs_of_nonneg (by positivity)]
    ring

/-- C4 (counterexample): backend_pt2's curved placement does not satisfy
the claimed formula — with N=2, spacing=1, R=1 its element 0 sits at
(cos(-π), sin(-π)) = (-1, 0), not at the claimed
(sin(-1/2), 1 - cos(-1/2)). -/
theorem C4_counterexample :
    Pt2.curvedPosition 1 2 0 ≠ specCurvedPosition 2 1 1 0 := by
  intro h
  have h1 : (Pt2.curvedPosition 1 2 0).1 = -1 := by
    simp [Pt2.curvedPosition, Pt2.curvedTheta, linspace]
  have h2 : (specCurvedPosition 2 1 1 0).1 = -Real.sin (1 / 2) := by
    simp only [specCurvedPosition, linspace]
    norm_num
  have hs : Real.sin (1 / 2) < 1 :=
    lt_trans (Real.sin_lt (by norm_num)) (by norm_num)
  rw [h] at h1
  rw [h2] at h1
  have : Real.sin (1 / 2) = 1 := by linarith
  linarith

/-- C4 (amended): the claimed curved geometry (subtended angle (N-1)·s/R
for R>0, else π/2; angles linearly spaced over [-angle/2, angle/2]; local
position (R·sinθ, R·(1-cosθ))) holds for the backend `PhasedArray` and for
the backend `BeamformingSimulator` when N ≥ 2 (a single element sits at
angle 0 there); backend_pt2 instead places elements on a fixed
half-circle θ ∈ linspace(-π, 0, N) at (R·cosθ, R·sinθ), independent of
spacing. -/
theorem C4_curved_geometry (n : ℕ) (s R : ℝ) (i : ℕ) :
    PhasedArray.curvedLocal n s R i = specCurvedPosition n s R i
    ∧ SimulatorGeom.curvedLocal (n + 2) s R i = specCurvedPosition (n + 2) s R i
    ∧ SimulatorGeom.curvedLocal 1 s R i = (0, 0)
    ∧ Pt2.curvedPosition R n i
      = (R * Real.cos (linspace (-Real.pi) 0 n i),
         R * Real.sin (linspace (-Real.pi) 0 n i)) := by
  refine ⟨?_, ?_, ?_, rfl⟩
  · simp only [PhasedArray.curvedLocal, PhasedArray.curvedAngle,
      PhasedArray.curvedTotalAngle, specCurvedPosition]
  · have hn : 1 < n + 2 := by omega
    simp only [SimulatorGeom.curvedLocal, SimulatorGeom.curvedAngle,
      specCurvedPosition, if_pos hn]
  · simp [SimulatorGeom.curvedLocal, SimulatorGeom.curvedAngle]


/-- C7 (counterexample): the claim's acceptance condition holds for
array_type="circular" (8 elements, frequency 1000), yet
`validate_scenario` rejects it — only 'Linear'/'Curved' variants are
accepted. -/
theorem C7_counterexample :
    (Scenario.validate_scenario ⟨some "s", some 8, some 1000, some "circular", none⟩).1 = false
    ∧ (2 : ℤ) ≤ 8 ∧ (8 : ℤ) ≤ 256 ∧ (0 : ℚ) < 1000
    ∧ "circular" ∈ (["linear", "curved", "circular", "rectangular"] : List String) := by
  refine ⟨rfl, by norm_num, by norm_num, by norm_num, by simp⟩

/-- C7 (amended): `validate_scenario` accepts exactly when all four
required fields are present, 2 ≤ num_elements ≤ 256, frequency > 0,
array_type ∈ {Linear, Curved, linear, curved}, and — when the array type
lower-cases to "curved" and a curvature_radius is supplied — that radius
is positive; in particular num_elements=1, num_elements=300,
frequency=-5 and array_type="hexagonal" are all rejected. -/
theorem C7_validate_scenario (d : Scenario.ScenarioData) :
    ((Scenario.validate_scenario d).1 = true ↔
      ∃ n f t, d.name.isSome
        ∧ d.num_elements = some n ∧ d.frequency = some f ∧ d.array_type = some t
        ∧ 2 ≤ n ∧ n ≤ 256 ∧ 0 < f
        ∧ t ∈ (["Linear", "Curved", "linear", "curved"] : List String)
        ∧ (Scenario.pyLower t = "curved" → ∀ r, d.curvature_radius = some r → 0 < r))
    ∧ (Scenario.validate_scenario ⟨some "s", some 1, some 1000, some "linear", none⟩).1 = false
    ∧ (Scenario.validate_scenario ⟨some "s", some 300, some 1000, some "linear", none⟩).1 = false
    ∧ (Scenario.validate_scenario ⟨some "s", some 8, some (-5), some "linear", none⟩).1 = false
    ∧ (Scenario.validate_scenario ⟨some "s", some 8, some 1000, some "hexagonal", none⟩).1 = false := by
  refine ⟨?_, rfl, rfl, rfl, rfl⟩
  rcases d with ⟨nm, ne, fr, at_, cr⟩
  cases nm with
  | none => simp [Scenario.validate_scenario]
  | some nmv =>
    cases ne with
    | none => simp [Scenario.validate_scenario]
    | some nev =>
      cases fr with
      | none => simp [Scenario.validate_scenario]
      | some frv =>
        cases at_ with
        | none => simp [Scenario.validate_scenario]
        | some atv =>
          cases cr with
          | none =>
              simp only [Scenario.validate_scenario, Option.isSome_some, Option.some.injEq,
                true_and, exists_eq_left']
              split_ifs with h1 h2 h3 h4 <;> simp_all
              omega
          | some crv =>
              simp only [Scenario.validate_scenario, Option.isSome_some, Option.some.injEq,
                true_and, exists_eq_left']
              split_ifs with h1 h2 h3 h4 h5 <;> simp_all
              omega

theorem C7_witness :
    (Scenario.validate_scenario ⟨some "a", some 8, some 1000, some "linear", none⟩).1 = true :=
  (C7_validate_scenario ⟨some "a", some 8, some 1000, some "linear", none⟩).1.mpr
    ⟨8, 1000, "linear", by decide, rfl, rfl, rfl, by norm_num, by norm_num, by norm_num,
      by decide, by intro h; exact absurd h (by decide)⟩

/-- C2: after `set_focus_point(fx, fy, frequency, speed)` every element
delay equals (max distance − that element's distance)/speed, every delay
is non-negative, the farthest element has delay exactly 0, and every
element phase equals 2π·frequency·delay. -/
theorem C2_focus_point (cfg : PhasedArray.Config) (fx fy freq speed : ℝ)
    (hn : 1 ≤ cfg.numElements) (hs : 0 < speed) :
    (∀ i, PhasedArray.focusDelay cfg fx fy speed i
        = (PhasedArray.focusMaxDistance cfg fx fy - PhasedArray.focusDistance cfg fx fy i)
          / speed)
    ∧ (∀ i, i < cfg.numElements → 0 ≤ PhasedArray.focusDelay cfg fx fy speed i)
    ∧ (∃ i, i < cfg.numElements ∧ PhasedArray.focusDelay cfg fx fy speed i = 0)
    ∧ (∀ i, PhasedArray.focusPhase cfg fx fy freq speed i
        = 2 * Real.pi * freq * PhasedArray.focusDelay cfg fx fy speed i) := by
  refine ⟨fun i => rfl, ?_, ?_, fun i => rfl⟩
  · intro i hi
    have hmem : PhasedArray.focusDistance cfg fx fy i
        ∈ (List.range cfg.numElements).map (PhasedArray.focusDistance cfg fx fy) :=
      List.mem_map.mpr ⟨i, List.mem_range.mpr hi, rfl⟩
    have hle : PhasedArray.focusDistance cfg fx fy i ≤ PhasedArray.focusMaxDistance cfg fx fy :=
      le_listMax hmem
    exact div_nonneg (by linarith) (le_of_lt hs)
  · have hne : (List.range cfg.numElements).map (PhasedArray.focusDistance cfg fx fy) ≠ [] := by
      intro h
      have := congrArg List.length h
      simp at this
      omega
    have hmem := listMax_mem hne
    obtain ⟨j, hj, hjeq⟩ := List.mem_map.mp hmem
    refine ⟨j, List.mem_range.mp hj, ?_⟩
    unfold PhasedArray.focusDelay
    rw [show PhasedArray.focusMaxDistance cfg fx fy
        = PhasedArray.focusDistance cfg fx fy j from hjeq.symm]
    simp

theorem C2_witness :
    (1 ≤ (PhasedArray.Config.mk 2 1 "linear" 10 (0, 0) 0).numElements ∧ (0 : ℝ) < 1)
    ∧ (∃ i, i < (PhasedArray.Config.mk 2 1 "linear" 10 (0, 0) 0).numElements
        ∧ PhasedArray.focusDelay (PhasedArray.Config.mk 2 1 "linear" 10 (0, 0) 0) 0 0 1 i = 0) :=
  ⟨⟨by norm_num, by norm_num⟩,
    (C2_focus_point (PhasedArray.Config.mk 2 1 "linear" 10 (0, 0) 0) 0 0 1 1
      (by norm_num) (by norm_num)).2.2.1⟩

/-- C6 (counterexample): backend_pt2's `compute_beam_profile` normalizes
without the positive-maximum guard — for the all-zero array factor [0]
the magnitude [0] is divided by its zero maximum, producing the IEEE
indeterminate [NaN] (modelled `[none]`) instead of being left as zeros. -/
theorem C6_counterexample :
    Pt2.profileNormalized [(0 : ℂ)] = [none]
    ∧ Pt2.profileNormalized [(0 : ℂ)] ≠ [some (0 : ℝ)] := by
  have h : Pt2.profileNormalized [(0 : ℂ)] = [none] := by
    simp [Pt2.profileNormalized, Pt2.profileMagnitude, listMax]
  exact ⟨h, by rw [h]; simp⟩

/-- C6 (amended): in the backend simulator the post-processing proceeds
in the claimed order — magnitude normalized by its own maximum with an
all-zero magnitude left as zeros; dB floored at -60; scaled magnitude =
1 + dB/60, mapping the floor to 0 and the peak to 1 — while backend_pt2
normalizes unguarded, turning an all-zero magnitude into all-NaN
(`none`) entries instead of zeros. -/
theorem C6_postprocessing (af : List ℂ) :
    ((∀ z ∈ af, z = 0) → Simulator.normalizedMagnitude af = Simulator.magnitude af)
    ∧ ((∀ z ∈ af, z = 0) → ∀ v ∈ Simulator.normalizedMagnitude af, v = 0)
    ∧ Simulator.magnitudeScaled af
        = (Simulator.magnitudeDb af).map (fun db => 1 + db / 60)
    ∧ (∀ v ∈ Simulator.magnitudeDb af,
        -60 ≤ v ∧ (1 + v / 60) ∈ Simulator.magnitudeScaled af
          ∧ (v = -60 → 1 + v / 60 = 0))
    ∧ (0 < listMax (Simulator.magnitude af) → (1 : ℝ) ∈ Simulator.magnitudeScaled af)
    ∧ ((∀ z ∈ af, z = 0) →
        Pt2.profileNormalized af = List.replicate af.length none) := by
  have hmag0 : (∀ z ∈ af, z = 0) → ∀ v ∈ Simulator.magnitude af, v = 0 := by
    intro hz v hv
    obtain ⟨z, hzm, rfl⟩ := List.mem_map.mp hv
    rw [hz z hzm]; simp
  have hmax0 : (∀ z ∈ af, z = 0) → ¬0 < listMax (Simulator.magnitude af) := by
    intro hz hpos
    cases hmag : Simulator.magnitude af with
    | nil => rw [hmag] at hpos; simp [listMax] at hpos
    | cons a l =>
        have hmem : listMax (a :: l) ∈ (a :: l) := listMax_mem (by simp)
        have h0 : listMax (a :: l) = 0 :=
          hmag0 hz (listMax (a :: l)) (by rw [hmag]; exact hmem)
        rw [hmag] at hpos
        linarith
  have hscaled : Simulator.magnitudeScaled af
      = (Simulator.magnitudeDb af).map (fun db => 1 + db / 60) := by
    unfold Simulator.magnitudeScaled
    have hfun : (fun db : ℝ => (db + 60) / 60) = fun db : ℝ => 1 + db / 60 := by
      funext x; ring
    rw [hfun]
  refine ⟨?_, ?_, hscaled, ?_, ?_, ?_⟩
  · intro hz
    unfold Simulator.normalizedMagnitude
    rw [if_neg (hmax0 hz)]
  · intro hz v hv
    have heq : Simulator.normalizedMagnitude af = Simulator.magnitude af := by
      unfold Simulator.normalizedMagnitude
      rw [if_neg (hmax0 hz)]
    exact hmag0 hz v (heq ▸ hv)
  · intro v hv
    refine ⟨?_, ?_, ?_⟩
    · unfold Simulator.magnitudeDb at hv
      obtain ⟨w, _, rfl⟩ := List.mem_map.mp hv
      exact le_max_right _ _
    · rw [hscaled]
      exact List.mem_map_of_mem _ hv
    · intro hveq; rw [hveq]; norm_num
  · intro hpos
    have hne : Simulator.magnitude af ≠ [] := by
      intro h; rw [h] at hpos; simp [listMax] at hpos
    have hmem := listMax_mem hne
    have hmne : listMax (Simulator.magnitude af) ≠ 0 := ne_of_gt hpos
    have h1mem : (1 : ℝ) ∈ Simulator.normalizedMagnitude af := by
      unfold Simulator.normalizedMagnitude
      rw [if_pos hpos]
      have := List.mem_map_of_mem (fun v => v / listMax (Simulator.magnitude af)) hmem
      simpa [div_self hmne] using this
    have h0mem : (0 : ℝ) ∈ Simulator.magnitudeDb af := by
      unfold Simulator.magnitudeDb
      have := List.mem_map_of_mem
        (fun v : ℝ => max (20 * Real.logb 10 (min (max v 1e-10) 1)) (-60)) h1mem
      have hval : max (20 * Real.logb 10 (min (max (1 : ℝ) 1e-10) 1)) (-60) = 0 := by
        rw [max_eq_left (by norm_num : (1e-10 : ℝ) ≤ 1), min_self, Real.logb_one,
          mul_zero]
        exact max_eq_left (by norm_num)
      simpa [hval] using this
    rw [hscaled]
    have := List.mem_map_of_mem (fun db : ℝ => 1 + db / 60) h0mem
    simpa using this
  · intro hz
    have hm0 : listMax (List.map (fun z => Complex.abs z) af) = 0 := by
      apply listMax_eq_zero
      intro v hv
      obtain ⟨z, hzm, rfl⟩ := List.mem_map.mp hv
      rw [hz z hzm]; simp
    simp only [Pt2.profileNormalized, Pt2.profileMagnitude, hm0, if_pos, List.map_map]
    exact List.map_const' af none

theorem C6_witness :
    Simulator.normalizedMagnitude [(0 : ℂ)] = Simulator.magnitude [(0 : ℂ)]
    ∧ (0 : ℝ) < listMax (Simulator.magnitude [(1 : ℂ)])
    ∧ (1 : ℝ) ∈ Simulator.magnitudeScaled [(1 : ℂ)]
    ∧ Pt2.profileNormalized [(0 : ℂ)] = List.replicate 1 none := by
  have hpos : (0 : ℝ) < listMax (Simulator.magnitude [(1 : ℂ)]) := by
    simp [Simulator.magnitude, listMax]
  exact ⟨(C6_postprocessing [(0 : ℂ)]).1 (by simp), hpos,
    (C6_postprocessing [(1 : ℂ)]).2.2.2.2.1 hpos,
    (C6_postprocessing [(0 : ℂ)]).2.2.2.2.2 (by simp)⟩

lemma foldl_max_map_mul (c : ℝ) (hc : 0 ≤ c) (x : ℝ) (xs : List ℝ) :
    (xs.map (fun v => c * v)).foldl max (c * x) = c * xs.foldl max x := by
  induction xs generalizing x with
  | nil => simp
  | cons y ys ih =>
      simp only [List.map_cons, List.foldl_cons]
      rw [show max (c * x) (c * y) = c * max x y from (mul_max_of_nonneg x y hc).symm]
      exact ih (max x y)

lemma listMax_map_mul (c : ℝ) (hc : 0 ≤ c) (l : List ℝ) :
    listMax (l.map (fun v => c * v)) = c * listMax l := by
  cases l with
  | nil => simp [listMax]
  | cons x xs =>
      simp only [List.map_cons, listMax]
      exact foldl_max_map_mul c hc x xs

lemma elementField_smul (w k amp ph px py x y c : ℝ) :
    Beamformer.elementField w k (c * amp) ph px py x y
      = (c : ℂ) * Beamformer.elementField w k amp ph px py x y := by
  unfold Beamformer.elementField
  push_cast
  ring

lemma arrayFieldAt_smul (speed freq x y c : ℝ) (a : Beamformer.Arr) :
    Beamformer.arrayFieldAt speed freq x y (Beamformer.scaleAmplitudes c a)
      = (c : ℂ) * Beamformer.arrayFieldAt speed freq x y a := by
  unfold Beamformer.arrayFieldAt Beamformer.scaleAmplitudes
  rw [Finset.mul_sum]
  exact Finset.sum_congr rfl fun i _ => elementField_smul _ _ _ _ _ _ _ _ c

lemma fieldSum_smul (speed freq x y c : ℝ) (arrays : List Beamformer.Arr) :
    ((arrays.map (Beamformer.scaleAmplitudes c)).map
        (Beamformer.arrayFieldAt speed freq x y)).sum
      = (c : ℂ) * (arrays.map (Beamformer.arrayFieldAt speed freq x y)).sum := by
  rw [List.map_map]
  rw [show (Beamformer.arrayFieldAt speed freq x y ∘ Beamformer.scaleAmplitudes c)
      = fun a => (c : ℂ) * Beamformer.arrayFieldAt speed freq x y a from
    funext fun a => arrayFieldAt_smul speed freq x y c a]
  exact List.sum_map_mul_left arrays (Beamformer.arrayFieldAt speed freq x y) (c : ℂ)

lemma rawIntensity_smul (arrays : List Beamformer.Arr) (freqs : List ℝ)
    (speed dist ang c : ℝ) (hc : 0 < c) :
    Beamformer.rawIntensity (arrays.map (Beamformer.scaleAmplitudes c)) freqs speed dist ang
      = c ^ 2 * Beamformer.rawIntensity arrays freqs speed dist ang := by
  simp only [Beamformer.rawIntensity]
  rw [show (freqs.map fun freq =>
        Complex.abs (((arrays.map (Beamformer.scaleAmplitudes c)).map
          (Beamformer.arrayFieldAt speed freq
            (dist * Real.sin (radians ang)) (dist * Real.cos (radians ang)))).sum) ^ 2)
      = freqs.map fun freq => c ^ 2 *
          Complex.abs ((arrays.map (Beamformer.arrayFieldAt speed freq
            (dist * Real.sin (radians ang)) (dist * Real.cos (radians ang)))).sum) ^ 2 from ?_]
  · rw [List.sum_map_mul_left, mul_div_assoc]
  · refine congrArg (freqs.map ·) (funext fun freq => ?_)
    rw [fieldSum_smul, map_mul Complex.abs, Complex.abs_ofReal, abs_of_pos hc, mul_pow]

lemma rawIntensity_nonneg (arrays : List Beamformer.Arr) (freqs : List ℝ)
    (speed dist ang : ℝ) :
    0 ≤ Beamformer.rawIntensity arrays freqs speed dist ang := by
  unfold Beamformer.rawIntensity
  apply div_nonneg
  · apply List.sum_nonneg
    intro v hv
    obtain ⟨f, _, rfl⟩ := List.mem_map.mp hv
    positivity
  · positivity

/-- C9: multiplying every element amplitude by the same positive constant
leaves the normalized beam-profile intensities unchanged — the
normalization by the pattern's own maximum cancels the rescaling. -/
theorem C9_amplitude_scaling (arrays : List Beamformer.Arr) (freqs : List ℝ)
    (speed dist c : ℝ) (hc : 0 < c) :
    Beamformer.profileIntensities (arrays.map (Beamformer.scaleAmplitudes c)) freqs speed dist
      = Beamformer.profileIntensities arrays freqs speed dist := by
  cases arrays with
  | nil => rfl
  | cons a0 rest =>
    have hc2 : (0 : ℝ) < c ^ 2 := by positivity
    unfold Beamformer.profileIntensities
    simp only [List.map_cons]
    have hraw : (Beamformer.linspaceList (-90) 90 361).map
        (Beamformer.rawIntensity
          (Beamformer.scaleAmplitudes c a0 :: rest.map (Beamformer.scaleAmplitudes c))
          freqs speed dist)
        = ((Beamformer.linspaceList (-90) 90 361).map
            (Beamformer.rawIntensity (a0 :: rest) freqs speed dist)).map
          (fun v => c ^ 2 * v) := by
      rw [List.map_map]
      refine congrArg ((Beamformer.linspaceList (-90) 90 361).map ·) (funext fun ang => ?_)
      exact rawIntensity_smul (a0 :: rest) freqs speed dist ang c hc
    rw [hraw, listMax_map_mul (c ^ 2) (le_of_lt hc2)]
    set raw := (Beamformer.linspaceList (-90) 90 361).map
      (Beamformer.rawIntensity (a0 :: rest) freqs speed dist) with hrawdef
    by_cases hm : 0 < listMax raw
    · rw [if_pos (mul_pos hc2 hm), if_pos hm, List.map_map]
      refine congrArg (raw.map ·) (funext fun v => ?_)
      show c ^ 2 * v / (c ^ 2 * listMax raw) = v / listMax raw
      exact mul_div_mul_left v (listMax raw) (ne_of_gt hc2)
    · have hneg : ¬0 < c ^ 2 * listMax raw := by
        intro h
        apply hm
        have h2 : 0 < c ^ 2 * listMax raw / c ^ 2 := div_pos h hc2
        rwa [mul_div_cancel_left₀ _ (ne_of_gt hc2)] at h2
      rw [if_neg hneg, if_neg hm]
      have hz : ∀ v ∈ raw, c ^ 2 * v = v := by
        intro v hv
        have hv0 : 0 ≤ v := by
          obtain ⟨ang, _, rfl⟩ := List.mem_map.mp hv
          exact rawIntensity_nonneg (a0 :: rest) freqs speed dist ang
        have : v = 0 := le_antisymm (le_trans (le_listMax hv) (not_lt.mp hm)) hv0
        rw [this, mul_zero]
      calc raw.map (fun v => c ^ 2 * v) = raw.map id := List.map_congr_left hz
        _ = raw := List.map_id raw

theorem C9_witness :
    (0 : ℝ) < 2
    ∧ Beamformer.profileIntensities
        (List.map (Beamformer.scaleAmplitudes 2) []) [1] 1 10
      = Beamformer.profileIntensities [] [1] 1 10 :=
  ⟨by norm_num, C9_amplitude_scaling [] [1] 1 10 2 (by norm_num)⟩
